import Mathlib

/-! Shallow embedding of `src/main.rs` (an amethyst-based selection/steering
prototype): the `MarkSelectedSystem` and `MouseSystem` passes, running over an
explicit entity/component world.

Modelling conventions:
* `f64`/`f32` values are modelled as real numbers; the `as f32` / `as_f64`
  casts in the source are modelled as the identity.
* Entity ids are naturals; each component storage is a map from entity id to
  an optional component value; joins iterate the `alive` list (component
  values are only meaningful for alive ids).
* `entities.delete` is modelled as immediate removal from `alive` (the engine
  defers it to the end of the tick, but no code in either system re-examines
  an entity it has already deleted, so the end-of-run states coincide).
* IEEE division by zero (`0.0/0.0 = NaN` at `main.rs:193`/`main.rs:221`)
  cannot be represented in `ℝ`; `steerStep` returns `none` exactly when the
  divisor `movement_length` is zero, and applying a `none` step sets the
  `nonFiniteWrite` observation flag of the world (the Rust code stores the
  non-finite values into the transform and UI position at that point). -/

/-- World-space transform (amethyst `Transform`); the two systems only read
and write the translation, and no entity is ever rotated, so
`append_translation_xyz` is translation addition. -/
structure Transform3 where
  x : ℝ
  y : ℝ
  z : ℝ

/-- The UI-space mirror position: the `local_x`/`local_y` fields of the
`UiTransform` component that `MouseSystem` mutates (`main.rs:198-199`). -/
structure UiXY where
  local_x : ℝ
  local_y : ℝ

/-- The entity/component store as the two systems see it.  `someObject`
models the `SomeObject` component (`main.rs:32-35`): present iff the entity
has one, holding its `ordered_to : Option<(f64, f64)>` field.  `marked`
models `MarkedAsSelected` (`main.rs:51-53`), holding the referenced marker
entity id.  `selected`/`selectable` model presence of the engine's `Selected`
and `Selectable` components.  `spriteRender` holds an opaque visual index.
`nextId` is the id the allocator hands to the next created entity.
`nonFiniteWrite` is the observation flag for IEEE non-finite stores. -/
structure World where
  alive : List ℕ
  nextId : ℕ
  selected : ℕ → Bool
  selectable : ℕ → Bool
  transform : ℕ → Option Transform3
  uiTransform : ℕ → Option UiXY
  spriteRender : ℕ → Option ℕ
  someObject : ℕ → Option (Option (ℝ × ℝ))
  marked : ℕ → Option ℕ
  nonFiniteWrite : Bool

/-- The input collaborator: `input.action_is_down("move")` and
`input.mouse_position()` (`main.rs:159`, `main.rs:166`). -/
structure InputState where
  moveDown : Option Bool
  mouse : Option (ℝ × ℝ)

/-- The display collaborator: `ScreenDimensions` width/height/hidpi factor
(`main.rs:161-165`). -/
structure ScreenDims where
  width : ℝ
  height : ℝ
  hidpi : ℝ

/-- Point update of a component storage. -/
def fset {α : Type} (f : ℕ → α) (i : ℕ) (v : α) : ℕ → α :=
  fun j => if j = i then v else f j

/-! ## MarkSelectedSystem (`main.rs:67-128`) -/

/-- The creation scan (`main.rs:90-93`): the join over
`(&*entities, &transforms, &selecteds, !&marked)`, in entity id order, each
match overwriting `marker_transform`, so the entity actually processed is the
last element of this list. -/
def creationCands (w : World) : List (ℕ × Transform3) :=
  w.alive.filterMap fun e =>
    match w.transform e with
    | some t => if w.selected e && (w.marked e).isNone then some (e, t) else none
    | none => none

/-- Building the marker entity and recording the link (`main.rs:95-109`):
a fresh entity carrying the configured selected sprite and a clone of the
source's transform; `marked.insert(e, MarkedAsSelected::new(&marker_entity))`
stores the fresh id on the source entity `e`. -/
def addMarker (s : ℕ) (w : World) (e : ℕ) (t : Transform3) : World :=
  let m := w.nextId
  { w with
    alive := w.alive ++ [m]
    nextId := w.nextId + 1
    spriteRender := fset w.spriteRender m (some s)
    transform := fset w.transform m (some t)
    marked := fset w.marked e (some m) }

/-- The teardown scan (`main.rs:113`): the join over
`(&*entities, !&selecteds, &marked)` in entity id order. -/
def teardownCands (w : World) : List ℕ :=
  w.alive.filter fun e => !w.selected e && (w.marked e).isSome

/-- One iteration of the teardown loop body (`main.rs:114-121`): look up the
linked marker, and delete it if it is still alive (the `is_alive` guard);
the deletion's `expect` cannot fire because of that guard. -/
def delStep (acc : World) (e : ℕ) : World :=
  match acc.marked e with
  | some m => if m ∈ acc.alive then { acc with alive := acc.alive.erase m } else acc
  | none => acc

/-- The whole teardown pass (`main.rs:112-126`): the loop deletes the marker
of every candidate, while `marker_to_be_removed` retains only the last
candidate, whose `MarkedAsSelected` component is then removed. -/
def teardownPass (w : World) : World :=
  let w2 := (teardownCands w).foldl delStep w
  match (teardownCands w).getLast? with
  | some e => { w2 with marked := fset w2.marked e none }
  | none => w2

/-- `MarkSelectedSystem::run` (`main.rs:79-127`).  Returns `none` when the
`marked.insert(..).unwrap()` at `main.rs:106-108` would panic, which happens
only if the chosen source entity is not alive. -/
def MarkSelectedSystem.run (s : ℕ) (w : World) : Option World :=
  match (creationCands w).getLast? with
  | none => some (teardownPass w)
  | some (e, t) =>
      if e ∈ w.alive then some (teardownPass (addMarker s w e t)) else none

/-! ## MouseSystem (`main.rs:130-229`) -/

/-- The screen-to-world target computation (`main.rs:161-172`). -/
noncomputable def computeTarget (dims : ScreenDims) (mouse : Option (ℝ × ℝ)) :
    Option (ℝ × ℝ) :=
  match mouse with
  | some (x, y) =>
      some ((x / dims.hidpi) - (dims.width / dims.hidpi) / 2,
            -(y / dims.hidpi) + (dims.height / dims.hidpi) / 2)
  | none => none

/-- The target-acquisition loop (`main.rs:157-180`): the join over
`(&transforms, &selected, &mut some_objects)`; each joined entity's
`ordered_to` is overwritten with the computed target when the `move` action
is reported down, and is untouched otherwise. -/
noncomputable def orderPass (inp : InputState) (dims : ScreenDims) (w : World) : World :=
  match inp.moveDown with
  | some true =>
      { w with someObject := fun e =>
          match w.transform e, w.selected e, w.someObject e with
          | some _, true, some _ => some (computeTarget dims inp.mouse)
          | _, _, _ => w.someObject e }
  | _ => w

/-- The per-axis steering step (`main.rs:187-196` and `main.rs:213-224`):
`movement_vec = target - position`,
`movement_length = 5 * sqrt(vx^2 + vy^2)`, step = `movement_vec / movement_length`.
Returns `none` when `movement_length = 0`: the Rust `f64` division then
produces a non-finite value (`0.0/0.0 = NaN`). -/
noncomputable def steerStep (px py tx ty : ℝ) : Option (ℝ × ℝ) :=
  let vx := tx - px
  let vy := ty - py
  let len := 5 * Real.sqrt (vx ^ 2 + vy ^ 2)
  if len = 0 then none else some (vx / len, vy / len)

/-- One iteration of the motion loop (`main.rs:183-201`): the join over
`(&mut transforms, &mut ui_transforms, &some_objects)` requires all three
components; when `ordered_to` holds a target the step is appended to the
transform translation and added to the UI mirror.  A `none` step means the
Rust code stored non-finite values into both. -/
noncomputable def moveEntity (w : World) (e : ℕ) : World :=
  match w.transform e, w.uiTransform e, w.someObject e with
  | some tr, some ui, some (some (tx, ty)) =>
      match steerStep tr.x tr.y tx ty with
      | some (sx, sy) =>
          { w with
            transform := fset w.transform e (some ⟨tr.x + sx, tr.y + sy, tr.z⟩)
            uiTransform := fset w.uiTransform e (some ⟨ui.local_x + sx, ui.local_y + sy⟩) }
      | none => { w with nonFiniteWrite := true }
  | _, _, _ => w

/-- One iteration of the marker-following loop (`main.rs:203-227`): the join
over `(&some_objects, &marked_as_selected)`; when the source entity has a
pending target and its linked marker is alive, the marker's transform is
fetched (`transforms.entry(..).or_insert(Transform::default())` lazily
creates a default one) and stepped toward the source's target from the
marker's own position. -/
noncomputable def moveMarker (w : World) (e : ℕ) : World :=
  match w.someObject e, w.marked e with
  | some (some (tx, ty)), some m =>
      if m ∈ w.alive then
        let mtr := (w.transform m).getD ⟨0, 0, 0⟩
        match steerStep mtr.x mtr.y tx ty with
        | some (sx, sy) =>
            { w with transform := fset w.transform m (some ⟨mtr.x + sx, mtr.y + sy, mtr.z⟩) }
        | none =>
            { w with transform := fset w.transform m (some mtr), nonFiniteWrite := true }
      else w
  | _, _ => w

/-- `MouseSystem::run` (`main.rs:144-228`): target acquisition, then the
motion loop, then the marker-following loop. -/
noncomputable def MouseSystem.run (inp : InputState) (dims : ScreenDims) (w : World) : World :=
  let w1 := orderPass inp dims w
  let w2 := w1.alive.foldl moveEntity w1
  w2.alive.foldl moveMarker w2

/-! ## Lemmas: the motion loop (`main.rs:183-201`) -/

/-- What the motion loop writes into a joined entity's transform, as a
function of that entity's own components. -/
noncomputable def movedTransform (tr? : Option Transform3) (ui? : Option UiXY)
    (so? : Option (Option (ℝ × ℝ))) : Option Transform3 :=
  match tr?, ui?, so? with
  | some tr, some _, some (some (tx, ty)) =>
      match steerStep tr.x tr.y tx ty with
      | some (sx, sy) => some ⟨tr.x + sx, tr.y + sy, tr.z⟩
      | none => some tr
  | _, _, _ => tr?

/-- What the motion loop writes into a joined entity's UI mirror. -/
noncomputable def movedUi (tr? : Option Transform3) (ui? : Option UiXY)
    (so? : Option (Option (ℝ × ℝ))) : Option UiXY :=
  match tr?, ui?, so? with
  | some tr, some ui, some (some (tx, ty)) =>
      match steerStep tr.x tr.y tx ty with
      | some (sx, sy) => some ⟨ui.local_x + sx, ui.local_y + sy⟩
      | none => some ui
  | _, _, _ => ui?

theorem moveEntity_alive (w : World) (e : ℕ) : (moveEntity w e).alive = w.alive := by
  unfold moveEntity
  repeat' split
  all_goals rfl

theorem moveEntity_someObject (w : World) (e : ℕ) :
    (moveEntity w e).someObject = w.someObject := by
  unfold moveEntity
  repeat' split
  all_goals rfl

theorem moveEntity_marked (w : World) (e : ℕ) : (moveEntity w e).marked = w.marked := by
  unfold moveEntity
  repeat' split
  all_goals rfl

theorem moveEntity_transform_ne (w : World) (e b : ℕ) (h : b ≠ e) :
    (moveEntity w e).transform b = w.transform b := by
  unfold moveEntity
  repeat' split
  all_goals simp [fset, h]

theorem moveEntity_ui_ne (w : World) (e b : ℕ) (h : b ≠ e) :
    (moveEntity w e).uiTransform b = w.uiTransform b := by
  unfold moveEntity
  repeat' split
  all_goals simp [fset, h]

theorem moveEntity_transform_self (w : World) (e : ℕ) :
    (moveEntity w e).transform e
      = movedTransform (w.transform e) (w.uiTransform e) (w.someObject e) := by
  rcases htr : w.transform e with _ | tr
  · simp [moveEntity, movedTransform, htr]
  rcases hui : w.uiTransform e with _ | ui
  · simp [moveEntity, movedTransform, htr, hui]
  rcases hso : w.someObject e with _ | so
  · simp [moveEntity, movedTransform, htr, hui, hso]
  rcases so with _ | ⟨tx, ty⟩
  · simp [moveEntity, movedTransform, htr, hui, hso]
  rcases hss : steerStep tr.x tr.y tx ty with _ | ⟨sx, sy⟩ <;>
    simp [moveEntity, movedTransform, htr, hui, hso, hss, fset]

theorem moveEntity_ui_self (w : World) (e : ℕ) :
    (moveEntity w e).uiTransform e
      = movedUi (w.transform e) (w.uiTransform e) (w.someObject e) := by
  rcases htr : w.transform e with _ | tr
  · simp [moveEntity, movedUi, htr]
  rcases hui : w.uiTransform e with _ | ui
  · simp [moveEntity, movedUi, htr, hui]
  rcases hso : w.someObject e with _ | so
  · simp [moveEntity, movedUi, htr, hui, hso]
  rcases so with _ | ⟨tx, ty⟩
  · simp [moveEntity, movedUi, htr, hui, hso]
  rcases hss : steerStep tr.x tr.y tx ty with _ | ⟨sx, sy⟩ <;>
    simp [moveEntity, movedUi, htr, hui, hso, hss, fset]

theorem foldl_moveEntity_alive (L : List ℕ) (w : World) :
    (L.foldl moveEntity w).alive = w.alive := by
  induction L generalizing w with
  | nil => rfl
  | cons a L ih => rw [List.foldl_cons, ih, moveEntity_alive]

theorem foldl_moveEntity_someObject (L : List ℕ) (w : World) :
    (L.foldl moveEntity w).someObject = w.someObject := by
  induction L generalizing w with
  | nil => rfl
  | cons a L ih => rw [List.foldl_cons, ih, moveEntity_someObject]

theorem foldl_moveEntity_marked (L : List ℕ) (w : World) :
    (L.foldl moveEntity w).marked = w.marked := by
  induction L generalizing w with
  | nil => rfl
  | cons a L ih => rw [List.foldl_cons, ih, moveEntity_marked]

theorem foldl_moveEntity_transform_of_not_mem (L : List ℕ) (w : World) (b : ℕ)
    (hb : b ∉ L) : (L.foldl moveEntity w).transform b = w.transform b := by
  induction L generalizing w with
  | nil => rfl
  | cons a L ih =>
      have hba : b ≠ a := fun h => hb (by rw [h]; exact List.mem_cons_self a L)
      rw [List.foldl_cons, ih _ (fun h => hb (List.mem_cons_of_mem _ h)),
        moveEntity_transform_ne _ _ _ hba]

theorem foldl_moveEntity_ui_of_not_mem (L : List ℕ) (w : World) (b : ℕ)
    (hb : b ∉ L) : (L.foldl moveEntity w).uiTransform b = w.uiTransform b := by
  induction L generalizing w with
  | nil => rfl
  | cons a L ih =>
      have hba : b ≠ a := fun h => hb (by rw [h]; exact List.mem_cons_self a L)
      rw [List.foldl_cons, ih _ (fun h => hb (List.mem_cons_of_mem _ h)),
        moveEntity_ui_ne _ _ _ hba]

theorem moveEntity_of_transform_none (w : World) (e : ℕ) (h : w.transform e = none) :
    moveEntity w e = w := by
  simp [moveEntity, h]

theorem foldl_moveEntity_transform_none (L : List ℕ) (w : World) (b : ℕ)
    (h : w.transform b = none) : (L.foldl moveEntity w).transform b = none := by
  induction L generalizing w with
  | nil => exact h
  | cons a L ih =>
      rw [List.foldl_cons]
      apply ih
      by_cases hab : b = a
      · subst hab; rw [moveEntity_of_transform_none w b h]; exact h
      · rw [moveEntity_transform_ne w a b hab]; exact h

theorem foldl_moveEntity_transform_of_mem (L : List ℕ) (w : World) (e : ℕ)
    (hnd : L.Nodup) (he : e ∈ L) :
    (L.foldl moveEntity w).transform e
      = movedTransform (w.transform e) (w.uiTransform e) (w.someObject e) := by
  induction L generalizing w with
  | nil => cases he
  | cons a L ih =>
      rw [List.foldl_cons]
      rcases List.nodup_cons.mp hnd with ⟨ha, hnd'⟩
      by_cases hae : e = a
      · subst hae
        rw [foldl_moveEntity_transform_of_not_mem L _ e ha, moveEntity_transform_self]
      · have he' : e ∈ L := by
          rcases List.mem_cons.mp he with h | h
          · exact absurd h hae
          · exact h
        rw [ih (moveEntity w a) hnd' he', moveEntity_transform_ne _ _ _ hae,
          moveEntity_ui_ne _ _ _ hae, moveEntity_someObject]

theorem foldl_moveEntity_ui_of_mem (L : List ℕ) (w : World) (e : ℕ)
    (hnd : L.Nodup) (he : e ∈ L) :
    (L.foldl moveEntity w).uiTransform e
      = movedUi (w.transform e) (w.uiTransform e) (w.someObject e) := by
  induction L generalizing w with
  | nil => cases he
  | cons a L ih =>
      rw [List.foldl_cons]
      rcases List.nodup_cons.mp hnd with ⟨ha, hnd'⟩
      by_cases hae : e = a
      · subst hae
        rw [foldl_moveEntity_ui_of_not_mem L _ e ha, moveEntity_ui_self]
      · have he' : e ∈ L := by
          rcases List.mem_cons.mp he with h | h
          · exact absurd h hae
          · exact h
        rw [ih (moveEntity w a) hnd' he', moveEntity_transform_ne _ _ _ hae,
          moveEntity_ui_ne _ _ _ hae, moveEntity_someObject]

/-! ## Lemmas: the marker-following loop (`main.rs:203-227`) -/

/-- What the marker-following loop writes into the marker's transform, as a
function of the marker's previous transform and the source's target: the
missing transform is lazily defaulted (`or_insert(Transform::default())`),
then stepped toward the target. -/
noncomputable def markerMove (tr? : Option Transform3) (tx ty : ℝ) : Option Transform3 :=
  let mtr := tr?.getD ⟨0, 0, 0⟩
  match steerStep mtr.x mtr.y tx ty with
  | some (sx, sy) => some ⟨mtr.x + sx, mtr.y + sy, mtr.z⟩
  | none => some mtr

theorem moveMarker_alive (w : World) (e : ℕ) : (moveMarker w e).alive = w.alive := by
  rcases hso : w.someObject e with _ | so
  · simp [moveMarker, hso]
  rcases so with _ | ⟨tx, ty⟩
  · simp [moveMarker, hso]
  rcases hm : w.marked e with _ | m
  · simp [moveMarker, hso, hm]
  by_cases hal : m ∈ w.alive
  · rcases hss : steerStep ((w.transform m).getD ⟨0, 0, 0⟩).x
        ((w.transform m).getD ⟨0, 0, 0⟩).y tx ty with _ | ⟨sx, sy⟩ <;>
      simp [moveMarker, hso, hm, hal, hss]
  · simp [moveMarker, hso, hm, hal]

theorem moveMarker_someObject (w : World) (e : ℕ) :
    (moveMarker w e).someObject = w.someObject := by
  rcases hso : w.someObject e with _ | so
  · simp [moveMarker, hso]
  rcases so with _ | ⟨tx, ty⟩
  · simp [moveMarker, hso]
  rcases hm : w.marked e with _ | m
  · simp [moveMarker, hso, hm]
  by_cases hal : m ∈ w.alive
  · rcases hss : steerStep ((w.transform m).getD ⟨0, 0, 0⟩).x
        ((w.transform m).getD ⟨0, 0, 0⟩).y tx ty with _ | ⟨sx, sy⟩ <;>
      simp [moveMarker, hso, hm, hal, hss]
  · simp [moveMarker, hso, hm, hal]

theorem moveMarker_marked (w : World) (e : ℕ) : (moveMarker w e).marked = w.marked := by
  rcases hso : w.someObject e with _ | so
  · simp [moveMarker, hso]
  rcases so with _ | ⟨tx, ty⟩
  · simp [moveMarker, hso]
  rcases hm : w.marked e with _ | m
  · simp [moveMarker, hso, hm]
  by_cases hal : m ∈ w.alive
  · rcases hss : steerStep ((w.transform m).getD ⟨0, 0, 0⟩).x
        ((w.transform m).getD ⟨0, 0, 0⟩).y tx ty with _ | ⟨sx, sy⟩ <;>
      simp [moveMarker, hso, hm, hal, hss]
  · simp [moveMarker, hso, hm, hal]

theorem moveMarker_ui (w : World) (e : ℕ) :
    (moveMarker w e).uiTransform = w.uiTransform := by
  rcases hso : w.someObject e with _ | so
  · simp [moveMarker, hso]
  rcases so with _ | ⟨tx, ty⟩
  · simp [moveMarker, hso]
  rcases hm : w.marked e with _ | m
  · simp [moveMarker, hso, hm]
  by_cases hal : m ∈ w.alive
  · rcases hss : steerStep ((w.transform m).getD ⟨0, 0, 0⟩).x
        ((w.transform m).getD ⟨0, 0, 0⟩).y tx ty with _ | ⟨sx, sy⟩ <;>
      simp [moveMarker, hso, hm, hal, hss]
  · simp [moveMarker, hso, hm, hal]

theorem moveMarker_transform_ne (w : World) (a b : ℕ)
    (h : ∀ mm, w.marked a = some mm → b ≠ mm) :
    (moveMarker w a).transform b = w.transform b := by
  rcases hso : w.someObject a with _ | so
  · simp [moveMarker, hso]
  rcases so with _ | ⟨tx, ty⟩
  · simp [moveMarker, hso]
  rcases hm : w.marked a with _ | m
  · simp [moveMarker, hso, hm]
  have hbm : b ≠ m := h m hm
  by_cases hal : m ∈ w.alive
  · rcases hss : steerStep ((w.transform m).getD ⟨0, 0, 0⟩).x
        ((w.transform m).getD ⟨0, 0, 0⟩).y tx ty with _ | ⟨sx, sy⟩ <;>
      simp [moveMarker, hso, hm, hal, hss, fset, hbm]
  · simp [moveMarker, hso, hm, hal]

theorem moveMarker_self (w : World) (e m : ℕ) (tx ty : ℝ)
    (hso : w.someObject e = some (some (tx, ty)))
    (hm : w.marked e = some m) (hal : m ∈ w.alive) :
    (moveMarker w e).transform m = markerMove (w.transform m) tx ty := by
  rcases hss : steerStep ((w.transform m).getD ⟨0, 0, 0⟩).x
      ((w.transform m).getD ⟨0, 0, 0⟩).y tx ty with _ | ⟨sx, sy⟩ <;>
    simp [moveMarker, markerMove, hso, hm, hal, hss, fset]

theorem foldl_moveMarker_alive (L : List ℕ) (w : World) :
    (L.foldl moveMarker w).alive = w.alive := by
  induction L generalizing w with
  | nil => rfl
  | cons a L ih => rw [List.foldl_cons, ih, moveMarker_alive]

theorem foldl_moveMarker_someObject (L : List ℕ) (w : World) :
    (L.foldl moveMarker w).someObject = w.someObject := by
  induction L generalizing w with
  | nil => rfl
  | cons a L ih => rw [List.foldl_cons, ih, moveMarker_someObject]

theorem foldl_moveMarker_marked (L : List ℕ) (w : World) :
    (L.foldl moveMarker w).marked = w.marked := by
  induction L generalizing w with
  | nil => rfl
  | cons a L ih => rw [List.foldl_cons, ih, moveMarker_marked]

theorem foldl_moveMarker_ui (L : List ℕ) (w : World) :
    (L.foldl moveMarker w).uiTransform = w.uiTransform := by
  induction L generalizing w with
  | nil => rfl
  | cons a L ih => rw [List.foldl_cons, ih, moveMarker_ui]

theorem foldl_moveMarker_transform_untouched (L : List ℕ) (w : World) (b : ℕ)
    (h : ∀ a ∈ L, ∀ mm, w.marked a = some mm → b ≠ mm) :
    (L.foldl moveMarker w).transform b = w.transform b := by
  induction L generalizing w with
  | nil => rfl
  | cons a L ih =>
      rw [List.foldl_cons]
      have hm : (moveMarker w a).marked = w.marked := moveMarker_marked w a
      rw [ih (moveMarker w a) (fun a' ha' mm hmm =>
        h a' (List.mem_cons_of_mem _ ha') mm (by rw [← hm]; exact hmm)),
        moveMarker_transform_ne w a b (h a (List.mem_cons_self a L))]

theorem foldl_moveMarker_at (L : List ℕ) (w : World) (e m : ℕ) (tx ty : ℝ)
    (hnd : L.Nodup) (he : e ∈ L)
    (hso : w.someObject e = some (some (tx, ty)))
    (hm : w.marked e = some m) (hal : m ∈ w.alive)
    (hoth : ∀ a ∈ L, a ≠ e → w.marked a ≠ some m) :
    (L.foldl moveMarker w).transform m = markerMove (w.transform m) tx ty := by
  induction L generalizing w with
  | nil => cases he
  | cons a L ih =>
      rw [List.foldl_cons]
      rcases List.nodup_cons.mp hnd with ⟨ha, hnd'⟩
      by_cases hae : e = a
      · subst hae
        have hunt : ∀ a' ∈ L, ∀ mm, (moveMarker w e).marked a' = some mm → m ≠ mm := by
          intro a' ha' mm hmm
          rw [moveMarker_marked] at hmm
          have hne : a' ≠ e := fun h => ha (h ▸ ha')
          intro hmeq
          exact hoth a' (List.mem_cons_of_mem _ ha') hne (by rw [hmm, hmeq])
        rw [foldl_moveMarker_transform_untouched L _ m hunt,
          moveMarker_self w e m tx ty hso hm hal]
      · have he' : e ∈ L := by
          rcases List.mem_cons.mp he with h | h
          · exact absurd h hae
          · exact h
        have hamne : ∀ mm, w.marked a = some mm → m ≠ mm := by
          intro mm hmm hmeq
          exact hoth a (List.mem_cons_self a L) (fun h => hae h.symm) (by rw [hmm, hmeq])
        have htr : (moveMarker w a).transform m = w.transform m :=
          moveMarker_transform_ne w a m hamne
        rw [ih (moveMarker w a) hnd' he' (by rw [moveMarker_someObject]; exact hso)
          (by rw [moveMarker_marked]; exact hm)
          (by rw [moveMarker_alive]; exact hal)
          (fun a' ha' hne => by
            rw [moveMarker_marked]
            exact hoth a' (List.mem_cons_of_mem _ ha') hne),
          htr]

/-! ## Lemmas: the teardown pass (`main.rs:111-126`) -/

theorem delStep_marked (acc : World) (e : ℕ) : (delStep acc e).marked = acc.marked := by
  unfold delStep
  repeat' split
  all_goals rfl

theorem delStep_selected (acc : World) (e : ℕ) : (delStep acc e).selected = acc.selected := by
  unfold delStep
  repeat' split
  all_goals rfl

theorem delStep_transform (acc : World) (e : ℕ) :
    (delStep acc e).transform = acc.transform := by
  unfold delStep
  repeat' split
  all_goals rfl

theorem delStep_spriteRender (acc : World) (e : ℕ) :
    (delStep acc e).spriteRender = acc.spriteRender := by
  unfold delStep
  repeat' split
  all_goals rfl

theorem delStep_someObject (acc : World) (e : ℕ) :
    (delStep acc e).someObject = acc.someObject := by
  unfold delStep
  repeat' split
  all_goals rfl

theorem delStep_selectable (acc : World) (e : ℕ) :
    (delStep acc e).selectable = acc.selectable := by
  unfold delStep
  repeat' split
  all_goals rfl

theorem delStep_alive_subset (acc : World) (e : ℕ) : (delStep acc e).alive ⊆ acc.alive := by
  unfold delStep
  repeat' split
  · exact List.erase_subset _ _
  all_goals exact fun _ h => h

theorem delStep_nodup (acc : World) (e : ℕ) (h : acc.alive.Nodup) :
    (delStep acc e).alive.Nodup := by
  unfold delStep
  repeat' split
  · exact h.erase _
  all_goals exact h

theorem foldl_delStep_marked (L : List ℕ) (w : World) :
    (L.foldl delStep w).marked = w.marked := by
  induction L generalizing w with
  | nil => rfl
  | cons a L ih => rw [List.foldl_cons, ih, delStep_marked]

theorem foldl_delStep_selected (L : List ℕ) (w : World) :
    (L.foldl delStep w).selected = w.selected := by
  induction L generalizing w with
  | nil => rfl
  | cons a L ih => rw [List.foldl_cons, ih, delStep_selected]

theorem foldl_delStep_transform (L : List ℕ) (w : World) :
    (L.foldl delStep w).transform = w.transform := by
  induction L generalizing w with
  | nil => rfl
  | cons a L ih => rw [List.foldl_cons, ih, delStep_transform]

theorem foldl_delStep_spriteRender (L : List ℕ) (w : World) :
    (L.foldl delStep w).spriteRender = w.spriteRender := by
  induction L generalizing w with
  | nil => rfl
  | cons a L ih => rw [List.foldl_cons, ih, delStep_spriteRender]

theorem foldl_delStep_someObject (L : List ℕ) (w : World) :
    (L.foldl delStep w).someObject = w.someObject := by
  induction L generalizing w with
  | nil => rfl
  | cons a L ih => rw [List.foldl_cons, ih, delStep_someObject]

theorem foldl_delStep_selectable (L : List ℕ) (w : World) :
    (L.foldl delStep w).selectable = w.selectable := by
  induction L generalizing w with
  | nil => rfl
  | cons a L ih => rw [List.foldl_cons, ih, delStep_selectable]

theorem foldl_delStep_alive_subset (L : List ℕ) (w : World) :
    (L.foldl delStep w).alive ⊆ w.alive := by
  induction L generalizing w with
  | nil => exact fun _ h => h
  | cons a L ih =>
      rw [List.foldl_cons]
      exact fun b hb => delStep_alive_subset w a (ih (delStep w a) hb)

theorem foldl_delStep_nodup (L : List ℕ) (w : World) (h : w.alive.Nodup) :
    (L.foldl delStep w).alive.Nodup := by
  induction L generalizing w with
  | nil => exact h
  | cons a L ih => rw [List.foldl_cons]; exact ih _ (delStep_nodup w a h)

/-- Every candidate's linked marker is gone after the deletion loop: the
delete at `main.rs:118-120` runs for every iteration of the loop, not just
the last one. -/
theorem foldl_delStep_kills (L : List ℕ) (w : World) (e m : ℕ)
    (hnd : w.alive.Nodup) (he : e ∈ L) (hm : w.marked e = some m) :
    m ∉ (L.foldl delStep w).alive := by
  induction L generalizing w with
  | nil => cases he
  | cons a L ih =>
      rw [List.foldl_cons]
      by_cases hae : e = a
      · subst hae
        have hgone : m ∉ (delStep w e).alive := by
          unfold delStep
          rw [hm]
          by_cases hmem : m ∈ w.alive
          · simp only [hmem, if_pos]
            intro hc
            exact ((hnd.mem_erase_iff).mp hc).1 rfl
          · simp only [hmem, if_neg, not_false_iff]
        exact fun hc => hgone (foldl_delStep_alive_subset L (delStep w e) hc)
      · have he' : e ∈ L := by
          rcases List.mem_cons.mp he with h | h
          · exact absurd h hae
          · exact h
        exact ih (delStep w a) (delStep_nodup w a hnd)
          he' (by rw [delStep_marked]; exact hm)

/-- An id that no candidate's link references survives the deletion loop. -/
theorem foldl_delStep_spares (L : List ℕ) (w : World) (b : ℕ)
    (hb : b ∈ w.alive) (h : ∀ a ∈ L, w.marked a ≠ some b) :
    b ∈ (L.foldl delStep w).alive := by
  induction L generalizing w with
  | nil => exact hb
  | cons a L ih =>
      rw [List.foldl_cons]
      have hb' : b ∈ (delStep w a).alive := by
        unfold delStep
        rcases hm : w.marked a with _ | mm
        · exact hb
        · have hne : b ≠ mm := fun hc =>
            h a (List.mem_cons_self a L) (by rw [hm, hc])
          by_cases hmem : mm ∈ w.alive
          · simp only [hmem, if_pos]
            exact (List.mem_erase_of_ne hne).mpr hb
          · simp only [hmem, if_neg, not_false_iff]
            exact hb
      exact ih (delStep w a) hb'
        (fun a' ha' => by rw [delStep_marked]; exact h a' (List.mem_cons_of_mem _ ha'))

theorem teardownPass_alive (w : World) :
    (teardownPass w).alive = ((teardownCands w).foldl delStep w).alive := by
  unfold teardownPass
  rcases hl : (teardownCands w).getLast? with _ | l <;> simp [hl]

theorem teardownPass_marked_of_none (w : World)
    (hl : (teardownCands w).getLast? = none) :
    (teardownPass w).marked = w.marked := by
  unfold teardownPass
  rw [hl]
  exact foldl_delStep_marked _ _

theorem teardownPass_marked_of_last (w : World) (l : ℕ)
    (hl : (teardownCands w).getLast? = some l) :
    (teardownPass w).marked = fset w.marked l none := by
  unfold teardownPass
  rw [hl]
  simp only []
  rw [foldl_delStep_marked]

theorem teardownPass_transform (w : World) :
    (teardownPass w).transform = w.transform := by
  unfold teardownPass
  rcases hl : (teardownCands w).getLast? with _ | l <;>
    simp [hl, foldl_delStep_transform]

theorem teardownPass_spriteRender (w : World) :
    (teardownPass w).spriteRender = w.spriteRender := by
  unfold teardownPass
  rcases hl : (teardownCands w).getLast? with _ | l <;>
    simp [hl, foldl_delStep_spriteRender]

theorem teardownPass_selected (w : World) :
    (teardownPass w).selected = w.selected := by
  unfold teardownPass
  rcases hl : (teardownCands w).getLast? with _ | l <;>
    simp [hl, foldl_delStep_selected]

theorem teardownPass_selectable (w : World) :
    (teardownPass w).selectable = w.selectable := by
  unfold teardownPass
  rcases hl : (teardownCands w).getLast? with _ | l <;>
    simp [hl, foldl_delStep_selectable]

theorem teardownPass_someObject (w : World) :
    (teardownPass w).someObject = w.someObject := by
  unfold teardownPass
  rcases hl : (teardownCands w).getLast? with _ | l <;>
    simp [hl, foldl_delStep_someObject]

/-! ## Lemmas: the creation pass (`main.rs:90-109`) and `MarkSelectedSystem::run` -/

theorem creationCands_mem (w : World) (e : ℕ) (t : Transform3)
    (h : (e, t) ∈ creationCands w) :
    e ∈ w.alive ∧ w.transform e = some t ∧ w.selected e = true ∧ w.marked e = none := by
  unfold creationCands at h
  rcases List.mem_filterMap.mp h with ⟨a, ha, hfa⟩
  rcases htr : w.transform a with _ | t'
  · simp [htr] at hfa
  · simp only [htr] at hfa
    by_cases hc : (w.selected a && (w.marked a).isNone) = true
    · rw [if_pos hc] at hfa
      simp only [Option.some.injEq, Prod.mk.injEq] at hfa
      rcases hfa with ⟨rfl, rfl⟩
      rcases Bool.and_eq_true_iff.mp hc with ⟨hsel, hmk⟩
      exact ⟨ha, htr, hsel, Option.isNone_iff_eq_none.mp hmk⟩
    · rw [if_neg hc] at hfa
      cases hfa

theorem teardownCands_mem (w : World) (e : ℕ) :
    e ∈ teardownCands w ↔
      e ∈ w.alive ∧ w.selected e = false ∧ (w.marked e).isSome = true := by
  unfold teardownCands
  rw [List.mem_filter]
  constructor
  · rintro ⟨ha, hc⟩
    rcases Bool.and_eq_true_iff.mp hc with ⟨hns, hm⟩
    exact ⟨ha, by revert hns; cases w.selected e <;> simp, hm⟩
  · rintro ⟨ha, hns, hm⟩
    exact ⟨ha, by rw [hns, hm]; rfl⟩

/-- Creating the marker does not change the set of teardown candidates: the
source entity is selected (so excluded from both scans' `!&selecteds`), and
the fresh marker entity carries no `MarkedAsSelected` component. -/
theorem teardownCands_addMarker (s : ℕ) (w : World) (e : ℕ) (t : Transform3)
    (hsel : w.selected e = true) (hfm : w.marked w.nextId = none) :
    teardownCands (addMarker s w e t) = teardownCands w := by
  unfold teardownCands addMarker
  simp only [List.filter_append]
  have h1 : w.alive.filter (fun e' =>
      !w.selected e' && (fset w.marked e (some w.nextId) e').isSome)
      = w.alive.filter (fun e' => !w.selected e' && (w.marked e').isSome) := by
    apply List.filter_congr
    intro x hx
    by_cases hxe : x = e
    · subst hxe
      rw [hsel]
      rfl
    · simp [fset, hxe]
  have h2 : [w.nextId].filter (fun e' =>
      !w.selected e' && (fset w.marked e (some w.nextId) e').isSome) = [] := by
    by_cases hne : w.nextId = e
    · simp [List.filter, fset, hne, hsel]
    · simp [List.filter, fset, hne, hfm]
  rw [h1, h2, List.append_nil]

/-! ## Concrete worlds for the lifecycle claims -/

/-- Two entities (1 and 2) that hold links to live markers (3 and 4) but are
no longer selected — e.g. both were deselected in the same tick.  This is a
legitimate pre-state: every link references a live marker. -/
def exW34 : World where
  alive := [1, 2, 3, 4]
  nextId := 5
  selected := fun _ => false
  selectable := fun _ => false
  transform := fun _ => none
  uiTransform := fun _ => none
  spriteRender := fun _ => none
  someObject := fun _ => none
  marked := fun e => if e = 1 then some 3 else if e = 2 then some 4 else none
  nonFiniteWrite := false

/-- C3 counterexample: running the lifecycle pass on `exW34` leaves entity 1
holding a MarkerLink to marker 3 even though marker 3 has been destroyed —
the loop at `main.rs:113-122` deletes every candidate's marker but the
removal at `main.rs:123-126` strips only the last candidate's link, so the
pass does leave a dangling link. -/
theorem c3_dangling_link_counterexample :
    (MarkSelectedSystem.run 0 exW34).map
      (fun w' => (w'.marked 1, w'.alive.contains 3)) = some (some 3, false) := by
  rfl

/-- C4 counterexample: on `exW34` the teardown processes more than one
entity: both marker 3 (linked from entity 1) and marker 4 (linked from
entity 2) are destroyed in the same tick, while only entity 2's MarkerLink
is removed — entity 1's marker is touched even though entity 2 is the one
whose link is processed. -/
theorem c4_multiple_markers_deleted_counterexample :
    (MarkSelectedSystem.run 0 exW34).map
      (fun w' => (w'.alive.contains 3, w'.alive.contains 4, w'.marked 1, w'.marked 2))
      = some (false, false, some 3, none) := by
  rfl

/-- A single stale link: entity 1 is unselected and links to marker 5,
which is already dead.  No creation candidate exists. -/
def exW9 : World where
  alive := [1]
  nextId := 2
  selected := fun _ => false
  selectable := fun _ => false
  transform := fun _ => none
  uiTransform := fun _ => none
  spriteRender := fun _ => none
  someObject := fun _ => none
  marked := fun e => if e = 1 then some 5 else none
  nonFiniteWrite := false

/-- C9: deselecting an entity whose linked marker was already destroyed by
other means still removes that entity's MarkerLink without error: the
`is_alive` check at `main.rs:116` skips the deletion of the dead marker as a
no-op, the pass completes (no `expect`/`unwrap` fires), and the MarkerLink
is removed regardless. -/
theorem c9_stale_marker_teardown (s e m : ℕ) (w : World)
    (hcc : creationCands w = [])
    (htd : teardownCands w = [e])
    (hm : w.marked e = some m) (hdead : m ∉ w.alive) :
    ∃ w', MarkSelectedSystem.run s w = some w' ∧
      w'.marked e = none ∧ w'.alive = w.alive := by
  have hrun : MarkSelectedSystem.run s w = some (teardownPass w) := by
    unfold MarkSelectedSystem.run
    rw [hcc]
    rfl
  refine ⟨teardownPass w, hrun, ?_, ?_⟩
  · rw [teardownPass_marked_of_last w e (by rw [htd]; rfl)]
    simp [fset]
  · rw [teardownPass_alive, htd]
    show (List.foldl delStep w [e]).alive = w.alive
    rw [List.foldl_cons, List.foldl_nil]
    unfold delStep
    rw [hm]
    simp [hdead]

/-- Closed instance of `c9_stale_marker_teardown` at the world `exW9`. -/
theorem c9_stale_marker_teardown_witness :
    ∃ w', MarkSelectedSystem.run 0 exW9 = some w' ∧
      w'.marked 1 = none ∧ w'.alive = exW9.alive :=
  c9_stale_marker_teardown 0 1 5 exW9 (by rfl) (by rfl) (by rfl) (by decide)

/-- Core of the amended C3: when at most one entity holds a MarkerLink while
unselected, every link points to a live marker, distinct holders reference
distinct markers, the teardown pass restores "no dangling link". -/
theorem teardownPass_no_dangling (w : World)
    (hnd : w.alive.Nodup)
    (hone : (teardownCands w).length ≤ 1)
    (hinv : ∀ d ∈ w.alive, ∀ mm, w.marked d = some mm → mm ∈ w.alive)
    (hinj : ∀ d1 ∈ w.alive, ∀ d2 ∈ w.alive, ∀ mm,
      w.marked d1 = some mm → w.marked d2 = some mm → d1 = d2) :
    ∀ d ∈ (teardownPass w).alive, ∀ mm,
      (teardownPass w).marked d = some mm → mm ∈ (teardownPass w).alive := by
  rcases htd : teardownCands w with _ | ⟨e0, rest⟩
  · have ha : (teardownPass w).alive = w.alive := by
      rw [teardownPass_alive, htd]
      rfl
    have hmkd : (teardownPass w).marked = w.marked :=
      teardownPass_marked_of_none w (by rw [htd]; rfl)
    intro d hd mm hmm
    rw [ha] at hd ⊢
    rw [hmkd] at hmm
    exact hinv d hd mm hmm
  · have hrest : rest = [] := by
      rw [htd] at hone
      simpa using List.length_eq_zero.mp (Nat.le_zero.mp (Nat.succ_le_succ_iff.mp hone))
    subst hrest
    have he0 := (teardownCands_mem w e0).mp (by rw [htd]; exact List.mem_singleton_self e0)
    rcases he0 with ⟨he0a, he0s, he0m⟩
    rcases Option.isSome_iff_exists.mp he0m with ⟨m0, hm0⟩
    have hm0a : m0 ∈ w.alive := hinv e0 he0a m0 hm0
    have ha : (teardownPass w).alive = w.alive.erase m0 := by
      rw [teardownPass_alive, htd]
      show (List.foldl delStep w [e0]).alive = _
      rw [List.foldl_cons, List.foldl_nil]
      unfold delStep
      rw [hm0]
      simp [hm0a]
    have hmk : (teardownPass w).marked = fset w.marked e0 none :=
      teardownPass_marked_of_last w e0 (by rw [htd]; rfl)
    intro d hd mm hmm
    rw [ha] at hd ⊢
    rw [hmk] at hmm
    have hd' := (hnd.mem_erase_iff).mp hd
    unfold fset at hmm
    by_cases hde : d = e0
    · rw [if_pos hde] at hmm
      cases hmm
    · rw [if_neg hde] at hmm
      have hmma : mm ∈ w.alive := hinv d hd'.2 mm hmm
      have hmne : mm ≠ m0 := fun hc => hde (hinj d hd'.2 e0 he0a m0 (hc ▸ hmm) hm0)
      exact (hnd.mem_erase_iff).mpr ⟨hmne, hmma⟩

/-- C3 (amended): provided at most one entity holds a MarkerLink while not
Selected, every link references a live marker, distinct holders reference
distinct markers, and the allocator's next id is fresh and unmarked, a run of
the Selection Marker Lifecycle pass leaves no dangling link: after the run
every MarkerLink held by a live entity references a live marker.  (With two
or more unselected link holders the pass deletes all their markers but
removes only the last link — see the counterexample.) -/
theorem c3_no_dangling_link (s : ℕ) (w : World)
    (hnd : w.alive.Nodup)
    (hone : (teardownCands w).length ≤ 1)
    (hinv : ∀ d ∈ w.alive, ∀ mm, w.marked d = some mm → mm ∈ w.alive)
    (hinj : ∀ d1 ∈ w.alive, ∀ d2 ∈ w.alive, ∀ mm,
      w.marked d1 = some mm → w.marked d2 = some mm → d1 = d2)
    (hfresh : w.nextId ∉ w.alive)
    (hfm : w.marked w.nextId = none) :
    ∃ w', MarkSelectedSystem.run s w = some w' ∧
      ∀ d ∈ w'.alive, ∀ mm, w'.marked d = some mm → mm ∈ w'.alive := by
  rcases hlast : (creationCands w).getLast? with _ | ⟨e, t⟩
  · refine ⟨teardownPass w, ?_, teardownPass_no_dangling w hnd hone hinv hinj⟩
    unfold MarkSelectedSystem.run
    rw [hlast]
  · rcases creationCands_mem w e t (List.mem_of_getLast?_eq_some hlast)
      with ⟨hea, het, hes, hemk⟩
    have hrun : MarkSelectedSystem.run s w = some (teardownPass (addMarker s w e t)) := by
      unfold MarkSelectedSystem.run
      rw [hlast]
      simp [hea]
    set w1 := addMarker s w e t with hw1
    have hMne : w.nextId ≠ e := fun hc => hfresh (hc ▸ hea)
    have halive1 : w1.alive = w.alive ++ [w.nextId] := rfl
    have hmk1 : w1.marked = fset w.marked e (some w.nextId) := rfl
    have hnd1 : w1.alive.Nodup := by
      rw [halive1]
      exact hnd.append (List.nodup_singleton _)
        (List.disjoint_singleton.mpr hfresh)
    have hone1 : (teardownCands w1).length ≤ 1 := by
      rw [hw1, teardownCands_addMarker s w e t hes hfm]
      exact hone
    have hinv1 : ∀ d ∈ w1.alive, ∀ mm, w1.marked d = some mm → mm ∈ w1.alive := by
      intro d hd mm hmm
      rw [hmk1] at hmm
      unfold fset at hmm
      by_cases hde : d = e
      · rw [if_pos hde] at hmm
        cases hmm
        rw [halive1]
        exact List.mem_append_right _ (List.mem_singleton_self _)
      · rw [if_neg hde] at hmm
        rw [halive1] at hd
        rcases List.mem_append.mp hd with hda | hdM
        · rw [halive1]
          exact List.mem_append_left _ (hinv d hda mm hmm)
        · rw [List.mem_singleton.mp hdM] at hmm
          rw [hfm] at hmm
          cases hmm
    have hinj1 : ∀ d1 ∈ w1.alive, ∀ d2 ∈ w1.alive, ∀ mm,
        w1.marked d1 = some mm → w1.marked d2 = some mm → d1 = d2 := by
      intro d1 hd1 d2 hd2 mm hmm1 hmm2
      rw [hmk1] at hmm1 hmm2
      unfold fset at hmm1 hmm2
      have old : ∀ d, d ∈ w1.alive → d ≠ e →
          (if d = e then some w.nextId else w.marked d) = some mm → mm ≠ w.nextId →
          d ∈ w.alive ∧ w.marked d = some mm := by
        intro d hd hde hmm _
        rw [if_neg hde] at hmm
        rw [halive1] at hd
        rcases List.mem_append.mp hd with hda | hdM
        · exact ⟨hda, hmm⟩
        · rw [List.mem_singleton.mp hdM] at hmm
          rw [hfm] at hmm
          cases hmm
      by_cases h1e : d1 = e <;> by_cases h2e : d2 = e
      · rw [h1e, h2e]
      · rw [if_pos h1e] at hmm1
        have hmmM : mm = w.nextId := (Option.some_inj.mp hmm1).symm
        exfalso
        rw [if_neg h2e] at hmm2
        rw [halive1] at hd2
        rcases List.mem_append.mp hd2 with hda | hdM
        · exact hfresh (hmmM ▸ hinv d2 hda mm hmm2)
        · rw [List.mem_singleton.mp hdM] at hmm2
          rw [hfm] at hmm2
          cases hmm2
      · rw [if_pos h2e] at hmm2
        have hmmM : mm = w.nextId := (Option.some_inj.mp hmm2).symm
        exfalso
        rw [if_neg h1e] at hmm1
        rw [halive1] at hd1
        rcases List.mem_append.mp hd1 with hda | hdM
        · exact hfresh (hmmM ▸ hinv d1 hda mm hmm1)
        · rw [List.mem_singleton.mp hdM] at hmm1
          rw [hfm] at hmm1
          cases hmm1
      · have hmmne : mm ≠ w.nextId := by
          intro hc
          rw [if_neg h1e] at hmm1
          rw [halive1] at hd1
          rcases List.mem_append.mp hd1 with hda | hdM
          · exact hfresh (hc ▸ hinv d1 hda mm hmm1)
          · rw [List.mem_singleton.mp hdM] at hmm1
            rw [hfm] at hmm1
            cases hmm1
        rcases old d1 hd1 h1e (by rw [if_neg h1e]; rw [if_neg h1e] at hmm1; exact hmm1) hmmne
          with ⟨hd1a, hm1⟩
        rcases old d2 hd2 h2e (by rw [if_neg h2e]; rw [if_neg h2e] at hmm2; exact hmm2) hmmne
          with ⟨hd2a, hm2⟩
        exact hinj d1 hd1a d2 hd2a mm hm1 hm2
    exact ⟨teardownPass w1, hrun,
      teardownPass_no_dangling w1 hnd1 hone1 hinv1 hinj1⟩

/-- A well-formed single-selection state: entity 1 is selected and unmarked
(with a transform, so it is a creation candidate); no teardown candidate
exists. -/
def exW6 : World where
  alive := [1]
  nextId := 2
  selected := fun e => e == 1
  selectable := fun _ => false
  transform := fun e => if e = 1 then some ⟨0, 0, 0⟩ else none
  uiTransform := fun _ => none
  spriteRender := fun _ => none
  someObject := fun _ => none
  marked := fun _ => none
  nonFiniteWrite := false

/-- Closed instance of `c3_no_dangling_link` at the world `exW6`. -/
theorem c3_no_dangling_link_witness :
    ∃ w', MarkSelectedSystem.run 7 exW6 = some w' ∧
      ∀ d ∈ w'.alive, ∀ mm, w'.marked d = some mm → mm ∈ w'.alive :=
  c3_no_dangling_link 7 exW6 (by decide) (by decide)
    (by intro d hd mm hmm; simp [exW6] at hmm)
    (by
      intro d1 hd1 d2 hd2 mm hmm1 hmm2
      simp [exW6] at hmm1)
    (by decide) (by rfl)

/-- C4 (amended): the teardown destroys the still-alive linked marker of
EVERY entity that holds a MarkerLink while no longer Selected — the delete
at `main.rs:118-120` sits inside the scan loop — and afterwards removes the
MarkerLink of only the last such candidate (`marker_to_be_removed` keeps
only the final match); any other candidate keeps its, now dangling, link. -/
theorem c4_teardown_scope (s : ℕ) (w : World) (e l m : ℕ)
    (hcc : creationCands w = [])
    (hnd : w.alive.Nodup)
    (he : e ∈ teardownCands w)
    (hm : w.marked e = some m)
    (hlast : (teardownCands w).getLast? = some l) :
    ∃ w', MarkSelectedSystem.run s w = some w' ∧
      m ∉ w'.alive ∧
      w'.marked l = none ∧
      (e ≠ l → w'.marked e = w.marked e) := by
  have hrun : MarkSelectedSystem.run s w = some (teardownPass w) := by
    unfold MarkSelectedSystem.run
    rw [hcc]
    rfl
  have hmk := teardownPass_marked_of_last w l hlast
  refine ⟨teardownPass w, hrun, ?_, ?_, ?_⟩
  · rw [teardownPass_alive]
    exact foldl_delStep_kills (teardownCands w) w e m hnd he hm
  · rw [hmk]
    simp [fset]
  · intro hne
    rw [hmk]
    simp [fset, hne]

/-- Closed instance of `c4_teardown_scope` at the world `exW34`: entity 1 is
not the processed (last) candidate, yet its marker 3 is destroyed, while its
link survives. -/
theorem c4_teardown_scope_witness :
    ∃ w', MarkSelectedSystem.run 0 exW34 = some w' ∧
      3 ∉ w'.alive ∧
      w'.marked 2 = none ∧
      (1 ≠ 2 → w'.marked 1 = exW34.marked 1) :=
  c4_teardown_scope 0 exW34 1 2 3 (by rfl) (by decide) (by decide) (by rfl) (by rfl)

/-- C6: when at least one entity is Selected, has a Transform and lacks a
MarkerLink, the creation pass materializes exactly one new marker entity
(id `w.nextId`), even if several entities qualify: it clones the chosen
source's transform, carries the configured selected sprite, is referenced by
a fresh MarkerLink on the source, has no `SomeObject` (Movable), is not
Selected and not Selectable, and no other entity is created
(`w'.alive ⊆ w.alive ++ [w.nextId]`). -/
theorem c6_single_marker_created (s : ℕ) (w : World) (e : ℕ) (t : Transform3)
    (hlast : (creationCands w).getLast? = some (e, t))
    (hfresh : w.nextId ∉ w.alive)
    (hfm : w.marked w.nextId = none)
    (hfsel : w.selected w.nextId = false)
    (hfsb : w.selectable w.nextId = false)
    (hfso : w.someObject w.nextId = none)
    (hinv : ∀ d ∈ w.alive, w.selected d = false →
      ∀ mm, w.marked d = some mm → mm ∈ w.alive) :
    ∃ w', MarkSelectedSystem.run s w = some w' ∧
      w'.marked e = some w.nextId ∧
      w.nextId ∈ w'.alive ∧
      w'.transform w.nextId = some t ∧
      w'.spriteRender w.nextId = some s ∧
      w'.someObject w.nextId = none ∧
      w'.selected w.nextId = false ∧
      w'.selectable w.nextId = false ∧
      w'.alive ⊆ w.alive ++ [w.nextId] := by
  rcases creationCands_mem w e t (List.mem_of_getLast?_eq_some hlast)
    with ⟨hea, het, hes, hemk⟩
  have hrun : MarkSelectedSystem.run s w = some (teardownPass (addMarker s w e t)) := by
    unfold MarkSelectedSystem.run
    rw [hlast]
    simp [hea]
  set w1 := addMarker s w e t with hw1
  have hMne : w.nextId ≠ e := fun hc => hfresh (hc ▸ hea)
  have halive1 : w1.alive = w.alive ++ [w.nextId] := rfl
  have hmk1 : w1.marked = fset w.marked e (some w.nextId) := rfl
  have htdc : teardownCands w1 = teardownCands w :=
    teardownCands_addMarker s w e t hes hfm
  have hsubset : (teardownPass w1).alive ⊆ w.alive ++ [w.nextId] := by
    rw [teardownPass_alive, ← halive1]
    exact foldl_delStep_alive_subset _ _
  have hMin : w.nextId ∈ (teardownPass w1).alive := by
    rw [teardownPass_alive]
    apply foldl_delStep_spares
    · rw [halive1]
      exact List.mem_append_right _ (List.mem_singleton_self _)
    · intro a ha
      rw [htdc] at ha
      rcases (teardownCands_mem w a).mp ha with ⟨haa, has, _⟩
      have hane : a ≠ e := fun hc => by
        rw [hc, hes] at has
        cases has
      rw [hmk1]
      unfold fset
      rw [if_neg hane]
      intro hc
      exact hfresh (hinv a haa has w.nextId hc)
  have hmke : (teardownPass w1).marked e = some w.nextId := by
    rcases hlt : (teardownCands w).getLast? with _ | l
    · rw [teardownPass_marked_of_none w1 (by rw [htdc]; exact hlt), hmk1]
      simp [fset]
    · rw [teardownPass_marked_of_last w1 l (by rw [htdc]; exact hlt)]
      have hl := (teardownCands_mem w l).mp
        (by rw [← htdc]; exact htdc ▸ List.mem_of_getLast?_eq_some hlt)
      have hlne : e ≠ l := fun hc => by
        rw [← hc, hes] at hl
        rcases hl with ⟨_, hfalse, _⟩
        cases hfalse
      rw [hmk1]
      simp [fset, hlne]
  refine ⟨teardownPass w1, hrun, hmke, hMin, ?_, ?_, ?_, ?_, ?_, hsubset⟩
  · rw [teardownPass_transform]
    show fset w.transform w.nextId (some t) w.nextId = some t
    simp [fset]
  · rw [teardownPass_spriteRender]
    show fset w.spriteRender w.nextId (some s) w.nextId = some s
    simp [fset]
  · rw [teardownPass_someObject]
    exact hfso
  · rw [teardownPass_selected]
    exact hfsel
  · rw [teardownPass_selectable]
    exact hfsb

/-- Closed instance of `c6_single_marker_created` at the world `exW6`. -/
theorem c6_single_marker_created_witness :
    ∃ w', MarkSelectedSystem.run 7 exW6 = some w' ∧
      w'.marked 1 = some 2 ∧
      2 ∈ w'.alive ∧
      w'.transform 2 = some ⟨0, 0, 0⟩ ∧
      w'.spriteRender 2 = some 7 ∧
      w'.someObject 2 = none ∧
      w'.selected 2 = false ∧
      w'.selectable 2 = false ∧
      w'.alive ⊆ [1] ++ [2] :=
  c6_single_marker_created 7 exW6 1 ⟨0, 0, 0⟩ (by rfl) (by decide)
    (by rfl) (by decide) (by rfl) (by rfl)
    (by
      intro d hd hsel mm hmm
      simp only [exW6] at hd
      rw [List.mem_singleton] at hd
      subst hd
      exact absurd hsel (by decide))

/-! ## MouseSystem claims -/

theorem orderPass_of_idle (inp : InputState) (dims : ScreenDims) (w : World)
    (h : inp.moveDown = none) : orderPass inp dims w = w := by
  simp [orderPass, h]

theorem moveEntity_of_someObject_none (w : World) (e : ℕ)
    (h : w.someObject e = none) : moveEntity w e = w := by
  rcases htr : w.transform e with _ | tr <;> rcases hui : w.uiTransform e with _ | ui <;>
    simp [moveEntity, htr, hui, h]

theorem foldl_moveEntity_transform_of_so_none (L : List ℕ) (w : World) (b : ℕ)
    (h : w.someObject b = none) :
    (L.foldl moveEntity w).transform b = w.transform b := by
  induction L generalizing w with
  | nil => rfl
  | cons a L ih =>
      rw [List.foldl_cons]
      by_cases hab : b = a
      · subst hab
        rw [moveEntity_of_someObject_none w b h]
        exact ih w h
      · rw [ih (moveEntity w a) (by rw [moveEntity_someObject]; exact h),
          moveEntity_transform_ne w a b hab]

/-- Standard demo viewport: 800x600, device scale factor 1. -/
noncomputable def dims0 : ScreenDims := ⟨800, 600, 1⟩

/-- No move command this tick, pointer absent. -/
def inpIdle : InputState := ⟨none, none⟩

/-- Move command held, pointer at the screen center (400, 300). -/
noncomputable def inpCenter : InputState := ⟨some true, some (400, 300)⟩

/-- Move command held, pointer at the top-left corner (0, 0). -/
noncomputable def inpCorner : InputState := ⟨some true, some (0, 0)⟩

/-- C5 (amended): for every entity with `SomeObject` (Movable), `Selected`
AND a `Transform` — the join at `main.rs:158` requires all three — one tick
sets `ordered_to` to the screen-to-world transform of the pointer when the
move command is active, clears it when the command is active but the pointer
is unavailable, and leaves it unchanged when the command is not reported
down. -/
theorem c5_target_acquisition (inp : InputState) (dims : ScreenDims) (w : World)
    (e : ℕ) (tr : Transform3) (cur : Option (ℝ × ℝ))
    (htr : w.transform e = some tr)
    (hsel : w.selected e = true)
    (hso : w.someObject e = some cur) :
    (MouseSystem.run inp dims w).someObject e =
      some (match inp.moveDown with
            | some true =>
                match inp.mouse with
                | some (mx, my) =>
                    some ((mx / dims.hidpi) - (dims.width / dims.hidpi) / 2,
                          -(my / dims.hidpi) + (dims.height / dims.hidpi) / 2)
                | none => none
            | _ => cur) := by
  simp only [MouseSystem.run]
  rw [foldl_moveMarker_someObject, foldl_moveEntity_someObject]
  rcases hmd : inp.moveDown with _ | b
  · simp [orderPass, hmd, hso]
  · cases b
    · simp [orderPass, hmd, hso]
    · simp only [orderPass, hmd]
      rcases hms : inp.mouse with _ | ⟨mx, my⟩ <;>
        simp [htr, hsel, hso, computeTarget, hms]

/-- An entity with `SomeObject`, `Selected` and a `Transform`, no pending
order. -/
noncomputable def exC5 : World where
  alive := [1]
  nextId := 2
  selected := fun e => e == 1
  selectable := fun _ => false
  transform := fun e => if e = 1 then some ⟨0, 0, 0⟩ else none
  uiTransform := fun _ => none
  spriteRender := fun _ => none
  someObject := fun e => if e = 1 then some none else none
  marked := fun _ => none
  nonFiniteWrite := false

/-- Closed instance of `c5_target_acquisition`: with viewport 800x600 and
scale 1, pointer (400, 300) yields target (0, 0) and pointer (0, 0) yields
target (-400, 300). -/
theorem c5_target_acquisition_witness :
    (MouseSystem.run inpCenter dims0 exC5).someObject 1 = some (some (0, 0)) ∧
    (MouseSystem.run inpCorner dims0 exC5).someObject 1 = some (some (-400, 300)) := by
  constructor
  · rw [c5_target_acquisition inpCenter dims0 exC5 1 ⟨0, 0, 0⟩ none (by rfl) (by rfl) (by rfl)]
    show some (some ((400 / dims0.hidpi) - (dims0.width / dims0.hidpi) / 2,
      -(300 / dims0.hidpi) + (dims0.height / dims0.hidpi) / 2)) = _
    simp only [dims0]
    norm_num
  · rw [c5_target_acquisition inpCorner dims0 exC5 1 ⟨0, 0, 0⟩ none (by rfl) (by rfl) (by rfl)]
    show some (some ((0 / dims0.hidpi) - (dims0.width / dims0.hidpi) / 2,
      -(0 / dims0.hidpi) + (dims0.height / dims0.hidpi) / 2)) = _
    simp only [dims0]
    norm_num

/-- An entity with `SomeObject` and `Selected` but no `Transform`. -/
noncomputable def exC5noTr : World where
  alive := [1]
  nextId := 2
  selected := fun e => e == 1
  selectable := fun _ => false
  transform := fun _ => none
  uiTransform := fun _ => none
  spriteRender := fun _ => none
  someObject := fun e => if e = 1 then some none else none
  marked := fun _ => none
  nonFiniteWrite := false

/-- C5 counterexample: entity 1 has Movable and Selected, the move command
is active and the pointer maps to (0, 0), yet `ordered_to` stays `none`
because the entity lacks a `Transform` and the join at `main.rs:158` skips
it — the claim, which quantifies over every entity with Movable and
Selected, predicts `ordered_to = some (0, 0)`. -/
theorem c5_missing_transform_counterexample :
    (MouseSystem.run inpCenter dims0 exC5noTr).someObject 1 = some none ∧
    (MouseSystem.run inpCenter dims0 exC5noTr).someObject 1 ≠ some (some (0, 0)) := by
  have h : (MouseSystem.run inpCenter dims0 exC5noTr).someObject 1 = some none := by
    simp only [MouseSystem.run]
    rw [foldl_moveMarker_someObject, foldl_moveEntity_someObject]
    simp [orderPass, inpCenter, exC5noTr]
  exact ⟨h, by rw [h]; simp⟩

/-- Arithmetic core of the amended bounded-step property: stepping by
`d / (5 * |d|)` along each axis shortens the distance by exactly `1/5`
whenever the remaining distance exceeds `5` (indeed whenever it exceeds
`1/5`). -/
theorem dist_reduction (vx vy : ℝ) (hD : 5 < Real.sqrt (vx ^ 2 + vy ^ 2)) :
    Real.sqrt ((vx - vx / (5 * Real.sqrt (vx ^ 2 + vy ^ 2))) ^ 2 +
               (vy - vy / (5 * Real.sqrt (vx ^ 2 + vy ^ 2))) ^ 2)
      = Real.sqrt (vx ^ 2 + vy ^ 2) - 1 / 5 := by
  set D := Real.sqrt (vx ^ 2 + vy ^ 2) with hDdef
  have hD0 : 0 < D := lt_trans (by norm_num) hD
  have hDne : D ≠ 0 := ne_of_gt hD0
  have hc0 : 0 ≤ 1 - 1 / (5 * D) := by
    have h1 : 1 / (5 * D) < 1 := by
      rw [div_lt_one (by positivity)]
      linarith
    linarith
  have hfact : (vx - vx / (5 * D)) ^ 2 + (vy - vy / (5 * D)) ^ 2
      = (vx ^ 2 + vy ^ 2) * (1 - 1 / (5 * D)) ^ 2 := by
    field_simp
    ring
  rw [hfact, Real.sqrt_mul (by positivity), Real.sqrt_sq hc0, ← hDdef]
  field_simp
  ring

/-- C1 (amended): for an entity with a pending `ordered_to` target at
Euclidean distance `D > 5`, a tick with no move command moves the entity
along the unit vector toward the target by exactly `1/5` distance units —
`main.rs:191` computes `movement_length = 5 * |d|` and then divides the
displacement by it, so the per-tick speed is `1/5`, not `5` — reducing the
remaining distance by exactly `1/5`. -/
theorem c1_bounded_step (inp : InputState) (dims : ScreenDims) (w : World)
    (e : ℕ) (px py pz tx ty : ℝ) (u : UiXY)
    (hmd : inp.moveDown = none)
    (hnd : w.alive.Nodup)
    (he : e ∈ w.alive)
    (htr : w.transform e = some ⟨px, py, pz⟩)
    (hui : w.uiTransform e = some u)
    (hso : w.someObject e = some (some (tx, ty)))
    (hnm : ∀ a ∈ w.alive, w.marked a ≠ some e)
    (hD : 5 < Real.sqrt ((tx - px) ^ 2 + (ty - py) ^ 2)) :
    (MouseSystem.run inp dims w).transform e
      = some ⟨px + (tx - px) / (5 * Real.sqrt ((tx - px) ^ 2 + (ty - py) ^ 2)),
              py + (ty - py) / (5 * Real.sqrt ((tx - px) ^ 2 + (ty - py) ^ 2)), pz⟩ ∧
    Real.sqrt ((tx - (px + (tx - px) / (5 * Real.sqrt ((tx - px) ^ 2 + (ty - py) ^ 2)))) ^ 2
             + (ty - (py + (ty - py) / (5 * Real.sqrt ((tx - px) ^ 2 + (ty - py) ^ 2)))) ^ 2)
      = Real.sqrt ((tx - px) ^ 2 + (ty - py) ^ 2) - 1 / 5 := by
  have hD0 : 0 < Real.sqrt ((tx - px) ^ 2 + (ty - py) ^ 2) := lt_trans (by norm_num) hD
  have hlen : (5 : ℝ) * Real.sqrt ((tx - px) ^ 2 + (ty - py) ^ 2) ≠ 0 :=
    mul_ne_zero (by norm_num) (ne_of_gt hD0)
  constructor
  · simp only [MouseSystem.run]
    rw [orderPass_of_idle inp dims w hmd]
    set w2 := w.alive.foldl moveEntity w with hw2
    have halive2 : w2.alive = w.alive := foldl_moveEntity_alive _ _
    have hm2 : w2.marked = w.marked := foldl_moveEntity_marked _ _
    have h3 : (w2.alive.foldl moveMarker w2).transform e = w2.transform e := by
      apply foldl_moveMarker_transform_untouched
      intro a ha mm hmm heq
      rw [halive2] at ha
      rw [hm2] at hmm
      exact hnm a ha (heq ▸ hmm)
    rw [h3, hw2, foldl_moveEntity_transform_of_mem w.alive w e hnd he, htr, hui, hso]
    simp [movedTransform, steerStep, hlen]
  · have harith := dist_reduction (tx - px) (ty - py) hD
    rw [show tx - (px + (tx - px) / (5 * Real.sqrt ((tx - px) ^ 2 + (ty - py) ^ 2)))
        = (tx - px) - (tx - px) / (5 * Real.sqrt ((tx - px) ^ 2 + (ty - py) ^ 2)) by ring,
      show ty - (py + (ty - py) / (5 * Real.sqrt ((tx - px) ^ 2 + (ty - py) ^ 2)))
        = (ty - py) - (ty - py) / (5 * Real.sqrt ((tx - px) ^ 2 + (ty - py) ^ 2)) by ring]
    exact harith

/-- An entity at the origin ordered to (10, 0): distance 10 > 5, with both a
world transform and a UI mirror. -/
noncomputable def exC1 : World where
  alive := [1]
  nextId := 2
  selected := fun _ => false
  selectable := fun _ => false
  transform := fun e => if e = 1 then some ⟨0, 0, 0⟩ else none
  uiTransform := fun e => if e = 1 then some ⟨0, 0⟩ else none
  spriteRender := fun _ => none
  someObject := fun e => if e = 1 then some (some (10, 0)) else none
  marked := fun _ => none
  nonFiniteWrite := false

/-- Closed instance of `c1_bounded_step` at the world `exC1`. -/
theorem c1_bounded_step_witness :
    (MouseSystem.run inpIdle dims0 exC1).transform 1
      = some ⟨0 + (10 - 0) / (5 * Real.sqrt (((10:ℝ) - 0) ^ 2 + ((0:ℝ) - 0) ^ 2)),
              0 + (0 - 0) / (5 * Real.sqrt (((10:ℝ) - 0) ^ 2 + ((0:ℝ) - 0) ^ 2)), 0⟩ ∧
    Real.sqrt ((10 - (0 + (10 - 0) / (5 * Real.sqrt (((10:ℝ) - 0) ^ 2 + ((0:ℝ) - 0) ^ 2)))) ^ 2
             + (0 - (0 + (0 - 0) / (5 * Real.sqrt (((10:ℝ) - 0) ^ 2 + ((0:ℝ) - 0) ^ 2)))) ^ 2)
      = Real.sqrt (((10:ℝ) - 0) ^ 2 + ((0:ℝ) - 0) ^ 2) - 1 / 5 :=
  c1_bounded_step inpIdle dims0 exC1 1 0 0 0 10 0 ⟨0, 0⟩ (by rfl) (by decide) (by decide)
    (by rfl) (by rfl) (by rfl)
    (by intro a ha hc; simp [exC1] at hc)
    (by
      rw [show ((10:ℝ) - 0) ^ 2 + ((0:ℝ) - 0) ^ 2 = 10 ^ 2 by norm_num,
        Real.sqrt_sq (by norm_num : (0:ℝ) ≤ 10)]
      norm_num)

/-- C1 counterexample: at `exC1` (distance exactly 10 from the target) the
tick moves the entity to (1/5, 0), leaving remaining distance `10 - 1/5`,
not `10 - 5`: one steering step reduces the distance by `1/5`, not by 5. -/
theorem c1_step_not_five_counterexample :
    (MouseSystem.run inpIdle dims0 exC1).transform 1 = some ⟨1 / 5, 0, 0⟩ ∧
    Real.sqrt ((10 - 1 / 5) ^ 2 + ((0:ℝ) - 0) ^ 2) = 10 - 1 / 5 ∧
    (10 - 1 / 5 : ℝ) ≠ 10 - 5 := by
  have hs : Real.sqrt (((10:ℝ) - 0) ^ 2 + ((0:ℝ) - 0) ^ 2) = 10 := by
    rw [show ((10:ℝ) - 0) ^ 2 + ((0:ℝ) - 0) ^ 2 = 10 ^ 2 by norm_num,
      Real.sqrt_sq (by norm_num : (0:ℝ) ≤ 10)]
  refine ⟨?_, ?_, by norm_num⟩
  · simp only [MouseSystem.run]
    rw [orderPass_of_idle inpIdle dims0 exC1 (by rfl)]
    set w2 := exC1.alive.foldl moveEntity exC1 with hw2
    have halive2 : w2.alive = exC1.alive := foldl_moveEntity_alive _ _
    have hm2 : w2.marked = exC1.marked := foldl_moveEntity_marked _ _
    have h3 : (w2.alive.foldl moveMarker w2).transform 1 = w2.transform 1 := by
      apply foldl_moveMarker_transform_untouched
      intro a ha mm hmm heq
      rw [hm2] at hmm
      simp [exC1] at hmm
    rw [h3, hw2, foldl_moveEntity_transform_of_mem exC1.alive exC1 1 (by decide) (by decide)]
    have he1 : exC1.transform 1 = some ⟨0, 0, 0⟩ := rfl
    have he2 : exC1.uiTransform 1 = some ⟨0, 0⟩ := rfl
    have he3 : exC1.someObject 1 = some (some (10, 0)) := rfl
    rw [he1, he2, he3]
    simp only [movedTransform, steerStep, hs]
    norm_num
  · rw [show ((10:ℝ) - 1 / 5) ^ 2 + ((0:ℝ) - 0) ^ 2 = (10 - 1 / 5) ^ 2 by norm_num,
      Real.sqrt_sq (by norm_num : (0:ℝ) ≤ 10 - 1 / 5)]

/-- C8 (amended): the motion loop's join (`main.rs:183-184`) requires the
entity to have a `Transform` AND a `UiTransform`: when both are present the
world transform is advanced by the steering step and the same displacement
is added to the UI mirror; when the UI mirror is absent the entity is
skipped entirely — its world transform is NOT advanced. -/
theorem c8_motion_mirror (inp : InputState) (dims : ScreenDims) (w : World)
    (e : ℕ) (px py pz tx ty : ℝ)
    (hmd : inp.moveDown = none)
    (hnd : w.alive.Nodup)
    (he : e ∈ w.alive)
    (htr : w.transform e = some ⟨px, py, pz⟩)
    (hso : w.someObject e = some (some (tx, ty)))
    (hnm : ∀ a ∈ w.alive, w.marked a ≠ some e)
    (hlen : (5 : ℝ) * Real.sqrt ((tx - px) ^ 2 + (ty - py) ^ 2) ≠ 0) :
    (∀ ux uy, w.uiTransform e = some ⟨ux, uy⟩ →
      (MouseSystem.run inp dims w).transform e
        = some ⟨px + (tx - px) / (5 * Real.sqrt ((tx - px) ^ 2 + (ty - py) ^ 2)),
                py + (ty - py) / (5 * Real.sqrt ((tx - px) ^ 2 + (ty - py) ^ 2)), pz⟩ ∧
      (MouseSystem.run inp dims w).uiTransform e
        = some ⟨ux + (tx - px) / (5 * Real.sqrt ((tx - px) ^ 2 + (ty - py) ^ 2)),
                uy + (ty - py) / (5 * Real.sqrt ((tx - px) ^ 2 + (ty - py) ^ 2))⟩) ∧
    (w.uiTransform e = none →
      (MouseSystem.run inp dims w).transform e = some ⟨px, py, pz⟩ ∧
      (MouseSystem.run inp dims w).uiTransform e = none) := by
  simp only [MouseSystem.run]
  rw [orderPass_of_idle inp dims w hmd]
  set w2 := w.alive.foldl moveEntity w with hw2
  have halive2 : w2.alive = w.alive := foldl_moveEntity_alive _ _
  have hm2 : w2.marked = w.marked := foldl_moveEntity_marked _ _
  have hui3 : (w2.alive.foldl moveMarker w2).uiTransform = w2.uiTransform :=
    foldl_moveMarker_ui _ _
  have htr3 : (w2.alive.foldl moveMarker w2).transform e = w2.transform e := by
    apply foldl_moveMarker_transform_untouched
    intro a ha mm hmm heq
    rw [halive2] at ha
    rw [hm2] at hmm
    exact hnm a ha (heq ▸ hmm)
  have htr2 : w2.transform e
      = movedTransform (w.transform e) (w.uiTransform e) (w.someObject e) := by
    rw [hw2]
    exact foldl_moveEntity_transform_of_mem w.alive w e hnd he
  have hui2 : w2.uiTransform e
      = movedUi (w.transform e) (w.uiTransform e) (w.someObject e) := by
    rw [hw2]
    exact foldl_moveEntity_ui_of_mem w.alive w e hnd he
  constructor
  · intro ux uy huiv
    constructor
    · rw [htr3, htr2, htr, huiv, hso]
      simp [movedTransform, steerStep, hlen]
    · rw [hui3, hui2, htr, huiv, hso]
      simp [movedUi, steerStep, hlen]
  · intro huiv
    constructor
    · rw [htr3, htr2, htr, huiv, hso]
      simp [movedTransform]
    · rw [hui3, hui2, htr, huiv, hso]
      simp [movedUi]

/-- Closed instance of `c8_motion_mirror` at the world `exC1` (UI mirror
present): transform and UI mirror receive the same displacement. -/
theorem c8_motion_mirror_witness :
    (MouseSystem.run inpIdle dims0 exC1).transform 1
      = some ⟨0 + (10 - 0) / (5 * Real.sqrt (((10:ℝ) - 0) ^ 2 + ((0:ℝ) - 0) ^ 2)),
              0 + (0 - 0) / (5 * Real.sqrt (((10:ℝ) - 0) ^ 2 + ((0:ℝ) - 0) ^ 2)), 0⟩ ∧
    (MouseSystem.run inpIdle dims0 exC1).uiTransform 1
      = some ⟨0 + (10 - 0) / (5 * Real.sqrt (((10:ℝ) - 0) ^ 2 + ((0:ℝ) - 0) ^ 2)),
              0 + (0 - 0) / (5 * Real.sqrt (((10:ℝ) - 0) ^ 2 + ((0:ℝ) - 0) ^ 2))⟩ :=
  (c8_motion_mirror inpIdle dims0 exC1 1 0 0 0 10 0 (by rfl) (by decide) (by decide)
    (by rfl) (by rfl)
    (by intro a ha hc; simp [exC1] at hc)
    (by
      rw [show ((10:ℝ) - 0) ^ 2 + ((0:ℝ) - 0) ^ 2 = 10 ^ 2 by norm_num,
        Real.sqrt_sq (by norm_num : (0:ℝ) ≤ 10)]
      norm_num)).1 0 0 (by rfl)

/-- Like `exC1` but without a UI mirror. -/
noncomputable def exC8 : World where
  alive := [1]
  nextId := 2
  selected := fun _ => false
  selectable := fun _ => false
  transform := fun e => if e = 1 then some ⟨0, 0, 0⟩ else none
  uiTransform := fun _ => none
  spriteRender := fun _ => none
  someObject := fun e => if e = 1 then some (some (10, 0)) else none
  marked := fun _ => none
  nonFiniteWrite := false

/-- C8 counterexample: entity 1 has a pending target at distance 10 but no
UI mirror; the claim says the world-transform advance happens whether or not
a UI mirror is present, yet the tick leaves the transform unchanged at
(0,0,0) instead of advancing it to (1/5, 0, 0). -/
theorem c8_no_ui_no_motion_counterexample :
    (MouseSystem.run inpIdle dims0 exC8).transform 1 = some ⟨0, 0, 0⟩ ∧
    (MouseSystem.run inpIdle dims0 exC8).transform 1 ≠ some ⟨1 / 5, 0, 0⟩ := by
  have h : (MouseSystem.run inpIdle dims0 exC8).transform 1 = some ⟨0, 0, 0⟩ := by
    simp only [MouseSystem.run]
    rw [orderPass_of_idle inpIdle dims0 exC8 (by rfl)]
    set w2 := exC8.alive.foldl moveEntity exC8 with hw2
    have hm2 : w2.marked = exC8.marked := foldl_moveEntity_marked _ _
    have h3 : (w2.alive.foldl moveMarker w2).transform 1 = w2.transform 1 := by
      apply foldl_moveMarker_transform_untouched
      intro a ha mm hmm heq
      rw [hm2] at hmm
      simp [exC8] at hmm
    rw [h3, hw2, foldl_moveEntity_transform_of_mem exC8.alive exC8 1 (by decide) (by decide)]
    have he1 : exC8.transform 1 = some ⟨0, 0, 0⟩ := rfl
    have he2 : exC8.uiTransform 1 = none := rfl
    have he3 : exC8.someObject 1 = some (some (10, 0)) := rfl
    rw [he1, he2, he3]
    simp [movedTransform]
  refine ⟨h, ?_⟩
  rw [h]
  intro hc
  rw [Option.some_inj] at hc
  have hx := congrArg Transform3.x hc
  norm_num at hx

/-- C7: for an entity with both a pending `ordered_to` target and a
MarkerLink to a live marker, the marker-following loop (`main.rs:203-227`)
advances the marker's transform by the same step-length rule as the motion
loop, with the displacement computed from the MARKER's own current position
to the SOURCE entity's target. -/
theorem c7_marker_following (inp : InputState) (dims : ScreenDims) (w : World)
    (e m : ℕ) (mx my mz tx ty : ℝ)
    (hmd : inp.moveDown = none)
    (hnd : w.alive.Nodup)
    (he : e ∈ w.alive)
    (hso : w.someObject e = some (some (tx, ty)))
    (hm : w.marked e = some m)
    (hma : m ∈ w.alive)
    (hmtr : w.transform m = some ⟨mx, my, mz⟩)
    (hmso : w.someObject m = none)
    (hoth : ∀ a ∈ w.alive, a ≠ e → w.marked a ≠ some m)
    (hlen : (5 : ℝ) * Real.sqrt ((tx - mx) ^ 2 + (ty - my) ^ 2) ≠ 0) :
    (MouseSystem.run inp dims w).transform m
      = some ⟨mx + (tx - mx) / (5 * Real.sqrt ((tx - mx) ^ 2 + (ty - my) ^ 2)),
              my + (ty - my) / (5 * Real.sqrt ((tx - mx) ^ 2 + (ty - my) ^ 2)), mz⟩ := by
  simp only [MouseSystem.run]
  rw [orderPass_of_idle inp dims w hmd]
  set w2 := w.alive.foldl moveEntity w with hw2
  have halive2 : w2.alive = w.alive := foldl_moveEntity_alive _ _
  have hm2 : w2.marked = w.marked := foldl_moveEntity_marked _ _
  have hso2 : w2.someObject = w.someObject := foldl_moveEntity_someObject _ _
  have hmtr2 : w2.transform m = some ⟨mx, my, mz⟩ := by
    rw [hw2, foldl_moveEntity_transform_of_so_none w.alive w m hmso]
    exact hmtr
  have h3 : (w2.alive.foldl moveMarker w2).transform m
      = markerMove (w2.transform m) tx ty := by
    apply foldl_moveMarker_at w2.alive w2 e m tx ty
    · rw [halive2]
      exact hnd
    · rw [halive2]
      exact he
    · rw [hso2]
      exact hso
    · rw [hm2]
      exact hm
    · rw [halive2]
      exact hma
    · intro a ha hne
      rw [hm2]
      rw [halive2] at ha
      exact hoth a ha hne
  rw [h3, hmtr2]
  simp [markerMove, steerStep, hlen]

/-- Entity 1 ordered to (10, 0) and linked to the live marker 2, whose own
transform sits at the origin. -/
noncomputable def exC7 : World where
  alive := [1, 2]
  nextId := 3
  selected := fun _ => false
  selectable := fun _ => false
  transform := fun e => if e = 2 then some ⟨0, 0, 0⟩ else none
  uiTransform := fun _ => none
  spriteRender := fun _ => none
  someObject := fun e => if e = 1 then some (some (10, 0)) else none
  marked := fun e => if e = 1 then some 2 else none
  nonFiniteWrite := false

/-- Closed instance of `c7_marker_following` at the world `exC7`. -/
theorem c7_marker_following_witness :
    (MouseSystem.run inpIdle dims0 exC7).transform 2
      = some ⟨0 + (10 - 0) / (5 * Real.sqrt (((10:ℝ) - 0) ^ 2 + ((0:ℝ) - 0) ^ 2)),
              0 + (0 - 0) / (5 * Real.sqrt (((10:ℝ) - 0) ^ 2 + ((0:ℝ) - 0) ^ 2)), 0⟩ :=
  c7_marker_following inpIdle dims0 exC7 1 2 0 0 0 10 0 (by rfl) (by decide) (by decide)
    (by rfl) (by rfl) (by decide) (by rfl) (by rfl)
    (by decide)
    (by
      rw [show ((10:ℝ) - 0) ^ 2 + ((0:ℝ) - 0) ^ 2 = 10 ^ 2 by norm_num,
        Real.sqrt_sq (by norm_num : (0:ℝ) ≤ 10)]
      norm_num)

/-- C10: when the live marker located through a MarkerLink has no
`Position/Transform`, the steering pass lazily creates a default transform
for it (`transforms.entry(..).or_insert(Transform::default())`,
`main.rs:208-211`) and proceeds with the marker's motion from the default
origin, rather than failing the tick. -/
theorem c10_lazy_default_transform (inp : InputState) (dims : ScreenDims) (w : World)
    (e m : ℕ) (tx ty : ℝ)
    (hmd : inp.moveDown = none)
    (hnd : w.alive.Nodup)
    (he : e ∈ w.alive)
    (hso : w.someObject e = some (some (tx, ty)))
    (hm : w.marked e = some m)
    (hma : m ∈ w.alive)
    (hmtr : w.transform m = none)
    (hoth : ∀ a ∈ w.alive, a ≠ e → w.marked a ≠ some m)
    (hlen : (5 : ℝ) * Real.sqrt ((tx - 0) ^ 2 + (ty - 0) ^ 2) ≠ 0) :
    (MouseSystem.run inp dims w).transform m
      = some ⟨0 + (tx - 0) / (5 * Real.sqrt ((tx - 0) ^ 2 + (ty - 0) ^ 2)),
              0 + (ty - 0) / (5 * Real.sqrt ((tx - 0) ^ 2 + (ty - 0) ^ 2)), 0⟩ := by
  simp only [MouseSystem.run]
  rw [orderPass_of_idle inp dims w hmd]
  set w2 := w.alive.foldl moveEntity w with hw2
  have halive2 : w2.alive = w.alive := foldl_moveEntity_alive _ _
  have hm2 : w2.marked = w.marked := foldl_moveEntity_marked _ _
  have hso2 : w2.someObject = w.someObject := foldl_moveEntity_someObject _ _
  have hmtr2 : w2.transform m = none := by
    rw [hw2]
    exact foldl_moveEntity_transform_none w.alive w m hmtr
  have h3 : (w2.alive.foldl moveMarker w2).transform m
      = markerMove (w2.transform m) tx ty := by
    apply foldl_moveMarker_at w2.alive w2 e m tx ty
    · rw [halive2]
      exact hnd
    · rw [halive2]
      exact he
    · rw [hso2]
      exact hso
    · rw [hm2]
      exact hm
    · rw [halive2]
      exact hma
    · intro a ha hne
      rw [hm2]
      rw [halive2] at ha
      exact hoth a ha hne
  rw [h3, hmtr2]
  have hR : Real.sqrt (tx ^ 2 + ty ^ 2) ≠ 0 := fun hc => hlen (by simp [hc])
  simp [markerMove, steerStep, hlen, hR]

/-- Like `exC7` but the marker entity 2 has no transform at all. -/
noncomputable def exC10 : World where
  alive := [1, 2]
  nextId := 3
  selected := fun _ => false
  selectable := fun _ => false
  transform := fun _ => none
  uiTransform := fun _ => none
  spriteRender := fun _ => none
  someObject := fun e => if e = 1 then some (some (10, 0)) else none
  marked := fun e => if e = 1 then some 2 else none
  nonFiniteWrite := false

/-- Closed instance of `c10_lazy_default_transform` at the world `exC10`. -/
theorem c10_lazy_default_transform_witness :
    (MouseSystem.run inpIdle dims0 exC10).transform 2
      = some ⟨0 + (10 - 0) / (5 * Real.sqrt (((10:ℝ) - 0) ^ 2 + ((0:ℝ) - 0) ^ 2)),
              0 + (0 - 0) / (5 * Real.sqrt (((10:ℝ) - 0) ^ 2 + ((0:ℝ) - 0) ^ 2)), 0⟩ :=
  c10_lazy_default_transform inpIdle dims0 exC10 1 2 10 0 (by rfl) (by decide) (by decide)
    (by rfl) (by rfl) (by decide) (by rfl)
    (by decide)
    (by
      rw [show ((10:ℝ) - 0) ^ 2 + ((0:ℝ) - 0) ^ 2 = 10 ^ 2 by norm_num,
        Real.sqrt_sq (by norm_num : (0:ℝ) ≤ 10)]
      norm_num)

/-- An entity whose current position (0,0) equals its pending target
(0,0): the steering displacement is the zero vector. -/
noncomputable def exC2 : World where
  alive := [1]
  nextId := 2
  selected := fun _ => false
  selectable := fun _ => false
  transform := fun e => if e = 1 then some ⟨0, 0, 0⟩ else none
  uiTransform := fun e => if e = 1 then some ⟨0, 0⟩ else none
  spriteRender := fun _ => none
  someObject := fun e => if e = 1 then some (some (0, 0)) else none
  marked := fun _ => none
  nonFiniteWrite := false

/-- C2 evidence: the motion loop has no zero-length special case.  When the
position equals the target, `movement_length = 5 * sqrt 0 = 0` and the step
is a division by zero (`steerStep` returns `none`, standing for the IEEE
`0.0/0.0 = NaN` the Rust code computes at `main.rs:193-195`), and the loop
still performs the write: the run records a non-finite store into the
transform and UI mirror instead of leaving the entity untouched. -/
theorem c2_zero_vector_nan_write :
    steerStep 0 0 0 0 = none ∧
    (MouseSystem.run inpIdle dims0 exC2).nonFiniteWrite = true := by
  have hstep : steerStep (0:ℝ) 0 0 0 = none := by
    simp [steerStep]
  refine ⟨hstep, ?_⟩
  simp only [MouseSystem.run]
  rw [orderPass_of_idle inpIdle dims0 exC2 (by rfl)]
  have h2 : exC2.alive.foldl moveEntity exC2 = moveEntity exC2 1 := by
    rw [show exC2.alive = [1] from rfl, List.foldl_cons, List.foldl_nil]
  rw [h2]
  have hme : moveEntity exC2 1 = { exC2 with nonFiniteWrite := true } := by
    have he1 : exC2.transform 1 = some ⟨0, 0, 0⟩ := rfl
    have he2 : exC2.uiTransform 1 = some ⟨0, 0⟩ := rfl
    have he3 : exC2.someObject 1 = some (some (0, 0)) := rfl
    rw [moveEntity, he1, he2, he3]
    simp [hstep]
  rw [hme]
  have h3 : ({ exC2 with nonFiniteWrite := true } : World).alive = [1] := rfl
  rw [h3, List.foldl_cons, List.foldl_nil]
  have hmm : moveMarker { exC2 with nonFiniteWrite := true } 1
      = { exC2 with nonFiniteWrite := true } := by
    have hm1 : ({ exC2 with nonFiniteWrite := true } : World).marked 1 = none := rfl
    have hs1 : ({ exC2 with nonFiniteWrite := true } : World).someObject 1
        = some (some (0, 0)) := rfl
    rw [moveMarker, hs1, hm1]
  rw [hmm]
